import Mathlib

/-!
Verification of the local-discovery engine (`lib/discover/local.go`).

We shallowly embed the discovery engine: time values are `Int` nanosecond
counts (Go `time.Duration` / `time.Time` differences), byte strings are
`List Nat`, and the external collaborators (the XDR codec, the URL parser
and the TCP resolver of the standard library) are carried as outcome
values, since the engine only branches on their results.
-/

namespace Discover

/-- Go `time.Duration` is an `int64` count of nanoseconds; we use `Int`. -/
abbrev Duration := Int

/-- One millisecond in nanoseconds (`time.Millisecond`). -/
def millisecond : Duration := 1000000

/-- One second in nanoseconds (`time.Second`). -/
def second : Duration := 1000000000

/-- `BroadcastInterval = 30 * time.Second` (local.go line 42). -/
def BroadcastInterval : Duration := 30 * second

/-- `CacheLifeTime = 3 * BroadcastInterval` (local.go line 43). -/
def CacheLifeTime : Duration := 3 * BroadcastInterval

/-- `protocol.DeviceID` is `[32]byte`; its length. -/
def DeviceIDLen : Nat := 32

/-- A device identifier: a byte list (fixed length 32 once coerced). -/
abbrev DeviceID := List Nat

/-- Go `net.IP`: a byte slice, length 4 or 16 for real addresses. -/
abbrev IP := List Nat

/-- Go `net.IP.To4`: the 4-byte form when the address is IPv4
(length 4, or length 16 with the v4-mapped 0..0:ffff markers). -/
def IP.to4 (ip : IP) : Option IP :=
  if ip.length = 4 then some ip
  else if ip.length = 16 && ip.take 10 = List.replicate 10 0
          && ip.get? 10 = some 255 && ip.get? 11 = some 255 then
    some (ip.drop 12)
  else none

/-- Go `net.IP.To16`: the 16-byte form of a length-4 or length-16 address. -/
def IP.to16 (ip : IP) : Option IP :=
  if ip.length = 4 then some (List.replicate 10 0 ++ [255, 255] ++ ip)
  else if ip.length = 16 then some ip
  else none

/-- Go `net.IP.IsUnspecified`: `ip.Equal(IPv4zero) || ip.Equal(IPv6unspecified)`,
unfolded over the three byte forms `net.IP.Equal` accepts for those two
addresses (plain 0.0.0.0, plain ::, and v4-mapped 0.0.0.0). -/
def IP.isUnspecified (ip : IP) : Bool :=
  ip = List.replicate 4 0 || ip = List.replicate 16 0
    || ip = List.replicate 10 0 ++ [255, 255] ++ List.replicate 4 0

/-- A relay descriptor (`discover.Relay`): endpoint URL and latency in
whole milliseconds, an `int32` on the wire (we keep `Int` and model the
`int32` conversion explicitly below). -/
structure Relay where
  URL : String
  Latency : Int
deriving DecidableEq, Repr

/-- The cache value (`discover.CacheEntry`): direct addresses, relays,
observation time (`when`, an absolute `Int` nanosecond timestamp) and the
`found` marker set on a real sighting. -/
structure CacheEntry where
  Direct : List String
  Relays : List Relay
  when : Int
  found : Bool
deriving DecidableEq, Repr

instance : Inhabited CacheEntry := ⟨⟨[], [], 0, false⟩⟩

/-- Modelled from the spec: the reachability cache of section 4.2 is not
under `src/` (only `local.go` is); per its contract it is a mapping from
peer identifier to record with `get(id) -> (record, found)` where `found`
is false only if the identifier has never been written, and
`set(id, record)` an unconditional last-writer-wins overwrite. We use an
association list. -/
abbrev Cache := List (DeviceID × CacheEntry)

/-- Modelled from the spec: `get(id) -> (record, found)`; a missing key
yields the zero-valued record and `found = false`. -/
def Cache.get (c : Cache) (id : DeviceID) : CacheEntry × Bool :=
  match c.find? (fun p => p.1 = id) with
  | some p => (p.2, true)
  | none => (default, false)

/-- Modelled from the spec: `set(id, record)`, unconditional overwrite. -/
def Cache.set (c : Cache) (id : DeviceID) (e : CacheEntry) : Cache :=
  match c with
  | [] => [(id, e)]
  | p :: rest => if p.1 = id then (id, e) :: rest else p :: Cache.set rest id e

/-- A parsed URL as the engine uses it: the scheme and the host:port
authority. Announcement addresses are plain `scheme://host` URLs, for
which Go `url.URL.String()` re-serializes exactly these two parts. -/
structure URL where
  scheme : String
  host : String
deriving DecidableEq, Repr

/-- Go `url.URL.String()` restricted to the `scheme://host` URLs the
announcement addresses are. -/
def URL.toString (u : URL) : String :=
  u.scheme ++ "://" ++ u.host

/-- One announced address string together with the outcomes of the two
external standard-library calls the engine makes on it (`url.Parse` and
`net.ResolveTCPAddr("tcp", u.Host)`); the engine only branches on these
outcomes, so we carry them as data. -/
inductive AnnAddr where
  /-- `url.Parse` failed on this address string. -/
  | parseFail (raw : String)
  /-- parsing succeeded but `net.ResolveTCPAddr` failed on the host. -/
  | resolveFail (raw : String) (u : URL)
  /-- both succeeded: the resolved IP bytes and the resolved port. -/
  | resolved (raw : String) (u : URL) (ip : IP) (port : Nat)
deriving DecidableEq, Repr

/-- The announced address string an `AnnAddr` stands for. -/
def AnnAddr.raw : AnnAddr → String
  | .parseFail r => r
  | .resolveFail r _ => r
  | .resolved r _ _ _ => r

/-- The `discover.Device` payload of an announcement. -/
structure Device where
  ID : List Nat
  Addresses : List AnnAddr
  Relays : List Relay
deriving DecidableEq, Repr

/-- `discover.Announce`: magic word plus the device payload. -/
structure Announce where
  Magic : Nat
  This : Device
deriving DecidableEq, Repr

/-- The Go zero value of `Announce`, as left by a declaration
`var pkt Announce` when decoding fails before filling any field. -/
def Announce.zero : Announce := ⟨0, ⟨[], [], []⟩⟩

/-- A `DeviceDiscovered` event as published on the event bus: the coerced
device identifier, the original announced address strings, the announced
relays. -/
structure Event where
  device : DeviceID
  addrs : List String
  relays : List Relay
deriving DecidableEq, Repr

/-- `var id protocol.DeviceID; copy(id[:], device.ID)`: the fixed-size
array starts zero-valued and `copy` writes `min 32 (length)` bytes, so a
short announced ID is zero-filled and a long one is truncated. -/
def coerceID (bs : List Nat) : DeviceID :=
  bs.take DeviceIDLen ++ List.replicate (DeviceIDLen - bs.length) 0

/-- The per-address normalization loop body of `registerDevice`
(local.go lines 199-221): drop unparseable or unresolvable addresses;
when the resolved IP is empty or unspecified, rebuild the URL with the
source host and the resolved port (`fmt.Sprintf("%s:%d", host, port)`),
provided the source address splits into host and port; otherwise keep
the original address string unchanged. `srcHost` is the host portion of
`net.SplitHostPort(src.String())`, `none` when that split fails. -/
def normalizeAddr (srcHost : Option String) : AnnAddr → Option String
  | .parseFail _ => none
  | .resolveFail _ _ => none
  | .resolved raw u ip port =>
    if ip.length = 0 || ip.isUnspecified then
      match srcHost with
      | none => none
      | some h => some (URL.toString ⟨u.scheme, h ++ ":" ++ toString port⟩)
    else some raw

/-- The result of `registerDevice`: the updated cache, the discovery
events published during the call, and the returned `isNewDevice`. -/
structure RegResult where
  cache : Cache
  events : List Event
  isNew : Bool
deriving DecidableEq, Repr

/-- `registerDevice` (local.go lines 187-239): coerce the announced ID,
judge newness from the existing record (`!existsAlready ||
time.Since(ce.when) > CacheLifeTime` — strict), normalize the addresses,
unconditionally overwrite the cache record with `when := now` and
`found := true`, and publish one `DeviceDiscovered` event when new.
`now` is the processing timestamp. -/
def registerDevice (c : Cache) (now : Int) (srcHost : Option String)
    (device : Device) : RegResult :=
  let id := coerceID device.ID
  let ce := Cache.get c id
  let isNewDevice := !ce.2 || decide (now - ce.1.when > CacheLifeTime)
  let validAddresses := device.Addresses.filterMap (normalizeAddr srcHost)
  let c' := Cache.set c id ⟨validAddresses, device.Relays, now, true⟩
  let evs := if isNewDevice then
      [⟨id, device.Addresses.map AnnAddr.raw, device.Relays⟩] else []
  ⟨c', evs, isNewDevice⟩

/-- The result of `Lookup`: named returns `direct`, `relays`, `err`. -/
structure LookupResult where
  direct : List String
  relays : List Relay
  err : Option String
deriving DecidableEq, Repr

/-- `Lookup` (local.go lines 100-109): the named results start zero
(`nil, nil, nil`); if the cache record exists and
`time.Since(cache.when) < CacheLifeTime` they are filled from it; `err`
is never assigned. -/
def Lookup (c : Cache) (now : Int) (device : DeviceID) : LookupResult :=
  let r := Cache.get c device
  if r.2 && decide (now - r.1.when < CacheLifeTime) then
    ⟨r.1.Direct, r.1.Relays, none⟩
  else
    ⟨[], [], none⟩

/-- Modelled from the spec: the XDR codec is an external collaborator
(`unmarshal(bytes) -> (Announcement, error)`). A decode of an inbound
byte buffer either succeeds, or fails with an error; Go out-parameter
semantics leave the partially decoded packet in `pkt`, and the Go io
convention reports truncation at a field boundary as `io.EOF` (which the
receive loop singles out), so a failing decode carries whether the error
was `io.EOF` and the partially decoded packet. -/
inductive DecodeResult where
  | ok (pkt : Announce)
  | fail (isEOF : Bool) (pkt : Announce)
deriving DecidableEq, Repr

/-- One inbound datagram as the receive loop sees it: the decode outcome
of its bytes, the host part of its source address, and the processing
time. -/
structure RecvInput where
  decoded : DecodeResult
  srcHost : Option String
  now : Int
deriving DecidableEq, Repr

/-- The engine state the receive loop touches, with the externally
observable outputs accumulated: published events and the number of
forced-rebroadcast signals sent on `forcedBcastTick`. -/
structure EngineState where
  cache : Cache
  events : List Event
  forced : Nat
deriving DecidableEq, Repr

/-- The body of `recvAnnouncements` run on a successfully decoded (or
EOF-tolerated) packet (local.go lines 174-183): if the announced ID
byte-compares equal to `myID[:]` nothing happens; otherwise
`registerDevice` runs and, when it reports a new device, one forced
broadcast tick is sent. -/
def processAnnouncement (myID : DeviceID) (s : EngineState)
    (srcHost : Option String) (now : Int) (pkt : Announce) : EngineState :=
  if pkt.This.ID = myID then s
  else
    let r := registerDevice s.cache now srcHost pkt.This
    ⟨r.cache, s.events ++ r.events, s.forced + (if r.isNew then 1 else 0)⟩

/-- One iteration of the `recvAnnouncements` loop (local.go lines
157-185): a decode failing with an error other than `io.EOF` drops the
packet (`continue`); a success, or a failure whose error is `io.EOF`, is
processed. -/
def recvStep (myID : DeviceID) (s : EngineState) (inp : RecvInput) :
    EngineState :=
  match inp.decoded with
  | .fail false _ => s
  | .fail true pkt => processAnnouncement myID s inp.srcHost inp.now pkt
  | .ok pkt => processAnnouncement myID s inp.srcHost inp.now pkt

/-- The `recvAnnouncements` loop over a finite trace of inbound
datagrams. -/
def recvLoop (myID : DeviceID) (s : EngineState) :
    List RecvInput → EngineState :=
  List.foldl (recvStep myID) s

/-- Go conversion `int32(x)` from a wider integer: keep the low 32 bits,
two's complement. -/
def int32ofInt (x : Int) : Int :=
  let m := x % 4294967296
  if m < 2147483648 then m else m - 4294967296

/-- The relay-status query interface (`RelayStatusProvider`): the
configured relay URLs and, per URL, the measured latency when one is
available (`RelayStatus(relay) -> (latency, ok)`). -/
structure RelayStatusProvider where
  relays : List String
  status : String → Option Duration

/-- The relay list of `announcementPkt` (local.go lines 122-131): for
each configured relay, include it only when a latency measurement is
available, with `Latency: int32(latency / time.Millisecond)` — Go `/` on
`int64` truncates toward zero. -/
def announcementRelays (rs : RelayStatusProvider) : List Relay :=
  rs.relays.filterMap fun relay =>
    (rs.status relay).map fun latency =>
      ⟨relay, int32ofInt (latency.tdiv millisecond)⟩

/-- `announcementPkt` (local.go lines 119-141): the outgoing
announcement from the own ID, the own-address list and the relay list
above. -/
def announcementPkt (myID : DeviceID) (AnnouncementMagic : Nat)
    (addrs : List AnnAddr) (rs : RelayStatusProvider) : Announce :=
  ⟨AnnouncementMagic, ⟨myID, addrs, announcementRelays rs⟩⟩

/-- Go `fmt` verb `%c` applied to an integer: the one-character string
holding the Unicode code point, or U+FFFD when the value is not a valid
code point (negative, surrogate, or above 0x10FFFF). -/
def goCharVerb (n : Nat) : String :=
  if n < 55296 || (57343 < n && n < 1114112) then
    String.singleton (Char.ofNat n)
  else
    String.singleton (Char.ofNat 65533)

/-- Decimal digit grouping for IPv4 rendering: Go `net.IP.String` on a
4-byte address gives dot-separated decimal bytes. -/
def ipv4String (ip : IP) : String :=
  String.intercalate "." (ip.map toString)

/-- Lowercase hex of a 16-bit group without leading zeros (Go ipv6
rendering writes each group with `appendHex`). -/
def hexGroup (n : Nat) : String :=
  ⟨Nat.toDigits 16 n⟩

/-- The 8 16-bit groups of a 16-byte IPv6 address. -/
def ipv6Groups (ip : IP) : List Nat :=
  match ip with
  | a :: b :: rest => (a * 256 + b) :: ipv6Groups rest
  | _ => []

/-- The longest run of zero groups, leftmost on ties, as Go's ipv6
renderer finds it: scanning left to right and keeping a strictly longer
run; runs of length < 2 are not compressed. Returns `(start, length)`
of the run to elide, or `none`. -/
def bestZeroRun (gs : List Nat) : Option (Nat × Nat) :=
  let runs := (List.range gs.length).map fun i =>
    (i, ((gs.drop i).takeWhile (· = 0)).length)
  let best := runs.foldl (fun acc r => if r.2 > acc.2 then r else acc) (0, 0)
  if best.2 > 1 then some best else none

/-- Go `net.IP.String` on a 16-byte non-v4 address: colon-separated
lowercase hex groups with the best zero run compressed to `::`. -/
def ipv6String (ip : IP) : String :=
  let gs := ipv6Groups ip
  match bestZeroRun gs with
  | none => String.intercalate ":" (gs.map hexGroup)
  | some (s, l) =>
      String.intercalate ":" ((gs.take s).map hexGroup) ++ "::"
        ++ String.intercalate ":" ((gs.drop (s + l)).map hexGroup)

/-- Go `net.IP.String` restricted to the 4- and 16-byte forms reachable
from `addrToAddr` (To4 is tried first there, so the 16-byte branch never
sees a v4-mapped address). -/
def ipString (ip : IP) : String :=
  match ip.to4 with
  | some p4 => ipv4String p4
  | none => if ip.length = 16 then ipv6String ip else ""

/-- Go `net.TCPAddr` as `addrToAddr` consumes it: IP bytes and port. -/
structure TCPAddr where
  ip : IP
  port : Nat
deriving DecidableEq, Repr

/-- `addrToAddr` (local.go lines 241-250), verbatim: an empty or
unspecified IP renders as `fmt.Sprintf(":%c", addr.Port)`, an IPv4 IP as
`fmt.Sprintf("%s:%c", bs.String(), addr.Port)`, an IPv6 IP as
`fmt.Sprintf("[%s]:%c", bs.String(), addr.Port)`, and anything else as
the empty string. Note the `%c` verb: the port is rendered as a Unicode
character, not in decimal. -/
def addrToAddr (addr : TCPAddr) : String :=
  if addr.ip.length = 0 || addr.ip.isUnspecified then
    ":" ++ goCharVerb addr.port
  else
    match addr.ip.to4 with
    | some bs => ipString bs ++ ":" ++ goCharVerb addr.port
    | none =>
      match addr.ip.to16 with
      | some bs => "[" ++ ipString bs ++ "]:" ++ goCharVerb addr.port
      | none => ""

/-! Helper lemmas about the cache and the identifier coercion. -/

theorem Cache.get_cons (p : DeviceID × CacheEntry) (c : Cache) (id : DeviceID) :
    Cache.get (p :: c) id = if p.1 = id then (p.2, true) else Cache.get c id := by
  by_cases h : p.1 = id <;> simp [Cache.get, List.find?_cons, h]

theorem Cache.get_set_self (c : Cache) (id : DeviceID) (e : CacheEntry) :
    Cache.get (Cache.set c id e) id = (e, true) := by
  induction c with
  | nil => simp [Cache.set, Cache.get_cons]
  | cons p rest ih =>
    by_cases h : p.1 = id
    · simp [Cache.set, h, Cache.get_cons]
    · simp [Cache.set, h, Cache.get_cons, ih]

theorem coerceID_append_zeros (bs zs : List Nat) (hz : ∀ z ∈ zs, z = 0) :
    coerceID (bs ++ zs) = coerceID bs := by
  obtain ⟨n, rfl⟩ : ∃ n, zs = List.replicate n 0 :=
    ⟨zs.length, List.eq_replicate_of_mem hz⟩
  unfold coerceID
  rw [List.take_append_eq_append_take, List.take_replicate, List.append_assoc,
    List.length_append, List.length_replicate]
  congr 1
  rw [← List.replicate_add]
  congr 1
  omega

theorem coerceID_append_of_full (bs extra : List Nat) (h : DeviceIDLen ≤ bs.length) :
    coerceID (bs ++ extra) = coerceID bs := by
  unfold coerceID
  rw [List.take_append_of_le_length h, List.length_append]
  congr 1
  have h1 : DeviceIDLen - (bs.length + extra.length) = 0 := by omega
  have h2 : DeviceIDLen - bs.length = 0 := by omega
  rw [h1, h2]

/-! Claim theorems. -/

/-- C1 (amended): a datagram whose decode fails with an error other than
`io.EOF` (incorrect magic, malformed structure) leaves the engine state
untouched — no cache entry created or overwritten, no event published, no
forced-rebroadcast signal — and the loop continues, so a subsequent trace
of inputs is processed exactly as if the bad datagram had never arrived.
(A decode failing with `io.EOF` is tolerated and processed; see the
counterexample.) -/
theorem recvStep_decodeFail_nonEOF_noop (myID : DeviceID) (s : EngineState)
    (inp : RecvInput) (pkt : Announce) (rest : List RecvInput)
    (h : inp.decoded = DecodeResult.fail false pkt) :
    recvStep myID s inp = s ∧
    recvLoop myID s (inp :: rest) = recvLoop myID s rest := by
  have hstep : recvStep myID s inp = s := by
    unfold recvStep
    rw [h]
  exact ⟨hstep, by rw [recvLoop, List.foldl_cons, hstep]⟩

theorem recvStep_decodeFail_nonEOF_noop_witness :
    recvStep (List.replicate 32 1) ⟨[], [], 0⟩
        ⟨DecodeResult.fail false Announce.zero, some "192.0.2.5", 5⟩
      = ⟨[], [], 0⟩ :=
  (recvStep_decodeFail_nonEOF_noop (List.replicate 32 1) ⟨[], [], 0⟩
    ⟨DecodeResult.fail false Announce.zero, some "192.0.2.5", 5⟩
    Announce.zero [] rfl).1

/-- C1 counterexample: the claim quantifies over every failing decode,
but the receive loop exempts `io.EOF` failures: a truncated datagram
whose decode stops at the very first field with `io.EOF` (leaving the
zero-valued packet) is processed, creates a cache entry under the
zero-padded identifier, publishes an event and sends a forced-rebroadcast
signal. -/
theorem recvStep_decodeFail_EOF_mutates_cache :
    (recvStep (List.replicate 32 1) ⟨[], [], 0⟩
        ⟨DecodeResult.fail true Announce.zero, some "192.0.2.5", 5⟩).cache
      ≠ ([] : Cache)
    ∧ (recvStep (List.replicate 32 1) ⟨[], [], 0⟩
        ⟨DecodeResult.fail true Announce.zero, some "192.0.2.5", 5⟩).events ≠ []
    ∧ (recvStep (List.replicate 32 1) ⟨[], [], 0⟩
        ⟨DecodeResult.fail true Announce.zero, some "192.0.2.5", 5⟩).forced = 1 := by
  refine ⟨?_, ?_, ?_⟩ <;> decide

/-- C2: `addrToAddr` renders the port with the `%c` verb, so the port
number becomes a single Unicode character rather than its decimal
digits; at the concrete address 192.0.2.5:22000 the result is the string
`192.0.2.5:` followed by code point 22000, not `192.0.2.5:22000`. -/
theorem addrToAddr_port_char_not_decimal :
    addrToAddr ⟨[192, 0, 2, 5], 22000⟩
        = "192.0.2.5:" ++ String.singleton (Char.ofNat 22000)
    ∧ addrToAddr ⟨[192, 0, 2, 5], 22000⟩ ≠ "192.0.2.5:22000"
    ∧ addrToAddr ⟨[], 22000⟩ ≠ ":22000" := by
  refine ⟨?_, ?_, ?_⟩ <;> decide

/-- C3 (amended): in `registerDevice`, `isNewDevice` is true iff there
is no existing cache record for the coerced identifier or the existing
record's age strictly exceeds `CacheLifeTime`; a record aged exactly
`CacheLifeTime` does not count as new. -/
theorem registerDevice_isNew_iff_strict (c : Cache) (now : Int)
    (srcHost : Option String) (dev : Device) :
    (registerDevice c now srcHost dev).isNew = true
      ↔ ((Cache.get c (coerceID dev.ID)).2 = false
        ∨ now - (Cache.get c (coerceID dev.ID)).1.when > CacheLifeTime) := by
  simp [registerDevice]

/-- C3 counterexample: with an existing record observed at time 0 and
`now = CacheLifeTime` the record's age equals `CacheLifeTime` exactly —
the claim's `>=` comparison would call the peer newly discovered, but the
code's strict `>` does not: `isNewDevice` is false. -/
theorem registerDevice_age_eq_lifetime_not_new :
    (registerDevice [(coerceID [7], ⟨[], [], 0, true⟩)] CacheLifeTime none
        ⟨[7], [], []⟩).isNew = false
    ∧ CacheLifeTime - (0 : Int) ≥ CacheLifeTime := by
  refine ⟨?_, ?_⟩ <;> decide

/-- C9: `Lookup` never fails: the `err` result is `nil` for every cache
state, time and identifier — absence of a usable record shows up only as
empty address and relay lists. -/
theorem Lookup_err_none (c : Cache) (now : Int) (device : DeviceID) :
    (Lookup c now device).err = none := by
  simp only [Lookup]
  split <;> rfl

/-- C4: freshness law of `Lookup`: when a record for the identifier was
written with `when = T`, a lookup strictly before `T + CacheLifeTime`
returns the stored direct addresses and relays, a lookup at
`T + CacheLifeTime` or later returns empty results, and an identifier
never written returns empty results. -/
theorem Lookup_freshness (c : Cache) (id : DeviceID) (now : Int) :
    (∀ e, Cache.get c id = (e, true) →
      (now < e.when + CacheLifeTime →
        Lookup c now id = ⟨e.Direct, e.Relays, none⟩)
      ∧ (e.when + CacheLifeTime ≤ now →
        Lookup c now id = ⟨[], [], none⟩))
    ∧ ((Cache.get c id).2 = false → Lookup c now id = ⟨[], [], none⟩) := by
  constructor
  · intro e he
    constructor
    · intro hlt
      have hc : now - e.when < CacheLifeTime := by omega
      simp [Lookup, he, hc]
    · intro hge
      have hc : ¬ now - e.when < CacheLifeTime := by omega
      simp [Lookup, he, hc]
  · intro hnf
    simp [Lookup, hnf]

theorem Lookup_freshness_witness :
    Lookup [(List.replicate 32 0, ⟨["tcp://192.0.2.5:22000"], [], 100, true⟩)]
        100 (List.replicate 32 0)
      = ⟨["tcp://192.0.2.5:22000"], [], none⟩ :=
  ((Lookup_freshness [(List.replicate 32 0,
      ⟨["tcp://192.0.2.5:22000"], [], 100, true⟩)] (List.replicate 32 0) 100).1
    ⟨["tcp://192.0.2.5:22000"], [], 100, true⟩ (by decide)).1 (by decide)

/-- C5: the direct addresses written by `registerDevice` are exactly the
announced addresses sent through the normalization map, which — per
announced address, independently of the rest of the packet — replaces the
host by the source host keeping the resolved port when the resolved IP
is empty or unspecified, keeps the original address string unchanged
when the IP is specific, and drops addresses whose parse or resolve
failed. -/
theorem registerDevice_address_normalization (c : Cache) (now : Int)
    (h : String) (dev : Device) :
    (Cache.get (registerDevice c now (some h) dev).cache
        (coerceID dev.ID)).1.Direct
      = dev.Addresses.filterMap (normalizeAddr (some h))
    ∧ (∀ raw u ip port,
        normalizeAddr (some h) (AnnAddr.resolved raw u ip port)
          = if ip.length = 0 || ip.isUnspecified then
              some (u.scheme ++ "://" ++ (h ++ ":" ++ toString port))
            else some raw)
    ∧ (∀ raw, normalizeAddr (some h) (AnnAddr.parseFail raw) = none)
    ∧ (∀ raw u, normalizeAddr (some h) (AnnAddr.resolveFail raw u) = none) := by
  refine ⟨?_, fun raw u ip port => ?_, fun raw => rfl, fun raw u => rfl⟩
  · simp [registerDevice, Cache.get_set_self]
  · by_cases hip : (decide (ip.length = 0) || ip.isUnspecified) = true
    · simp [normalizeAddr, hip, URL.toString]
    · simp [normalizeAddr, hip, URL.toString]

/-- C6: self-exclusion: an announcement whose sender identifier
byte-compares equal to the engine's own identifier changes nothing in
any engine state — no cache write, no event, no forced-rebroadcast
signal — whether the packet decoded cleanly or with the tolerated
`io.EOF`. -/
theorem recv_self_announcement_noop (myID : DeviceID) (s : EngineState)
    (srcHost : Option String) (now : Int) (pkt : Announce)
    (h : pkt.This.ID = myID) :
    processAnnouncement myID s srcHost now pkt = s
    ∧ recvStep myID s ⟨DecodeResult.ok pkt, srcHost, now⟩ = s
    ∧ recvStep myID s ⟨DecodeResult.fail true pkt, srcHost, now⟩ = s := by
  have hp : processAnnouncement myID s srcHost now pkt = s := by
    simp [processAnnouncement, h]
  exact ⟨hp, hp, hp⟩

theorem recv_self_announcement_noop_witness :
    recvStep (List.replicate 32 2) ⟨[], [], 0⟩
        ⟨DecodeResult.ok ⟨123, ⟨List.replicate 32 2, [], []⟩⟩, none, 7⟩
      = ⟨[], [], 0⟩ :=
  (recv_self_announcement_noop (List.replicate 32 2) ⟨[], [], 0⟩ none 7
    ⟨123, ⟨List.replicate 32 2, [], []⟩⟩ rfl).2.1

/-- C7: the first valid non-self announcement ever received for a peer
publishes exactly one discovery event and sends exactly one
forced-rebroadcast signal and writes the fresh record; a second valid
announcement for the same peer arriving before `CacheLifeTime` has
elapsed publishes no event and sends no signal, yet the cache record is
still unconditionally overwritten with the fresh normalized addresses,
announced relays and current timestamp. -/
theorem first_announcement_triggers_once
    (s : EngineState) (myID : DeviceID) (dev dev2 : Device)
    (magic magic2 : Nat) (src src2 : Option String) (now1 now2 : Int)
    (hfirst : (Cache.get s.cache (coerceID dev.ID)).2 = false)
    (hns : ¬ dev.ID = myID) (hns2 : ¬ dev2.ID = myID)
    (hsame : coerceID dev2.ID = coerceID dev.ID)
    (hsoon : now2 - now1 < CacheLifeTime) :
    (recvStep myID s ⟨DecodeResult.ok ⟨magic, dev⟩, src, now1⟩).events
        = s.events
          ++ [⟨coerceID dev.ID, dev.Addresses.map AnnAddr.raw, dev.Relays⟩]
    ∧ (recvStep myID s ⟨DecodeResult.ok ⟨magic, dev⟩, src, now1⟩).forced
        = s.forced + 1
    ∧ Cache.get (recvStep myID s ⟨DecodeResult.ok ⟨magic, dev⟩, src, now1⟩).cache
          (coerceID dev.ID)
        = (⟨dev.Addresses.filterMap (normalizeAddr src), dev.Relays, now1, true⟩,
            true)
    ∧ (recvStep myID (recvStep myID s ⟨DecodeResult.ok ⟨magic, dev⟩, src, now1⟩)
          ⟨DecodeResult.ok ⟨magic2, dev2⟩, src2, now2⟩).events
        = (recvStep myID s ⟨DecodeResult.ok ⟨magic, dev⟩, src, now1⟩).events
    ∧ (recvStep myID (recvStep myID s ⟨DecodeResult.ok ⟨magic, dev⟩, src, now1⟩)
          ⟨DecodeResult.ok ⟨magic2, dev2⟩, src2, now2⟩).forced
        = (recvStep myID s ⟨DecodeResult.ok ⟨magic, dev⟩, src, now1⟩).forced
    ∧ Cache.get (recvStep myID
            (recvStep myID s ⟨DecodeResult.ok ⟨magic, dev⟩, src, now1⟩)
            ⟨DecodeResult.ok ⟨magic2, dev2⟩, src2, now2⟩).cache
          (coerceID dev.ID)
        = (⟨dev2.Addresses.filterMap (normalizeAddr src2), dev2.Relays, now2,
            true⟩, true) := by
  have e1 : recvStep myID s ⟨DecodeResult.ok ⟨magic, dev⟩, src, now1⟩
      = ⟨Cache.set s.cache (coerceID dev.ID)
            ⟨dev.Addresses.filterMap (normalizeAddr src), dev.Relays, now1, true⟩,
          s.events
            ++ [⟨coerceID dev.ID, dev.Addresses.map AnnAddr.raw, dev.Relays⟩],
          s.forced + 1⟩ := by
    simp [recvStep, processAnnouncement, registerDevice, hns, hfirst]
  have hnotnew : ¬ now2 - now1 > CacheLifeTime := by omega
  have e2 : recvStep myID
        (recvStep myID s ⟨DecodeResult.ok ⟨magic, dev⟩, src, now1⟩)
        ⟨DecodeResult.ok ⟨magic2, dev2⟩, src2, now2⟩
      = ⟨Cache.set (Cache.set s.cache (coerceID dev.ID)
              ⟨dev.Addresses.filterMap (normalizeAddr src), dev.Relays, now1,
                true⟩)
            (coerceID dev.ID)
            ⟨dev2.Addresses.filterMap (normalizeAddr src2), dev2.Relays, now2,
              true⟩,
          s.events
            ++ [⟨coerceID dev.ID, dev.Addresses.map AnnAddr.raw, dev.Relays⟩],
          s.forced + 1⟩ := by
    rw [e1]
    simp [recvStep, processAnnouncement, registerDevice, hns2, hsame,
      Cache.get_set_self, hnotnew]
  refine ⟨by rw [e1], by rw [e1], ?_, by rw [e2, e1], by rw [e2, e1], ?_⟩
  · rw [e1]
    exact Cache.get_set_self _ _ _
  · rw [e2]
    exact Cache.get_set_self _ _ _

theorem first_announcement_triggers_once_witness :
    (recvStep (List.replicate 32 1) ⟨[], [], 0⟩
        ⟨DecodeResult.ok ⟨123, ⟨[7], [], []⟩⟩, some "192.0.2.5", 0⟩).forced
      = 0 + 1 :=
  (first_announcement_triggers_once ⟨[], [], 0⟩ (List.replicate 32 1)
    ⟨[7], [], []⟩ ⟨[7], [], []⟩ 123 123 (some "192.0.2.5") (some "192.0.2.5")
    0 1 (by decide) (by decide) (by decide) rfl (by decide)).2.1

/-- C8 (amended): a configured relay with no latency measurement is
omitted from the outgoing announcement; one with a measurement is
included with latency `int32(latency / time.Millisecond)`, the duration
truncated to whole milliseconds — a value that is non-negative whenever
the measured duration is non-negative and below 2^31 milliseconds (the
`int32` conversion wraps outside that range; see the counterexample). -/
theorem announcement_relay_latency (rs : RelayStatusProvider) (relay : String)
    (latency : Duration) :
    (rs.status relay = none →
      ∀ e ∈ announcementRelays rs, ¬ e.URL = relay)
    ∧ (rs.status relay = some latency → relay ∈ rs.relays →
      (⟨relay, int32ofInt (latency.tdiv millisecond)⟩ : Relay)
        ∈ announcementRelays rs)
    ∧ (0 ≤ latency → latency < 2147483648 * millisecond →
      int32ofInt (latency.tdiv millisecond) = latency.tdiv millisecond
      ∧ 0 ≤ latency.tdiv millisecond) := by
  refine ⟨?_, ?_, ?_⟩
  · intro hnone e he heq
    rw [announcementRelays, List.mem_filterMap] at he
    obtain ⟨a, _, ha⟩ := he
    obtain ⟨lat, hlat, hval⟩ := Option.map_eq_some'.mp ha
    have hurl : e.URL = a := by rw [← hval]
    rw [heq] at hurl
    rw [hurl, hlat] at hnone
    exact Option.noConfusion hnone
  · intro hsome hmem
    rw [announcementRelays, List.mem_filterMap]
    exact ⟨relay, hmem, by rw [hsome]; rfl⟩
  · intro h0 hlt
    have hms : (0 : Int) < millisecond := by norm_num [millisecond]
    have htd0 : 0 ≤ latency.tdiv millisecond := Int.tdiv_nonneg h0 hms.le
    have hteq : latency.tdiv millisecond = latency / millisecond :=
      Int.tdiv_eq_ediv h0 hms.le
    have htdlt : latency.tdiv millisecond < 2147483648 := by
      rw [hteq, Int.ediv_lt_iff_lt_mul hms]
      exact hlt
    refine ⟨?_, htd0⟩
    simp only [int32ofInt]
    split <;> omega

theorem announcement_relay_latency_witness :
    (⟨"relay://a", int32ofInt ((42000000 : Int).tdiv millisecond)⟩ : Relay)
      ∈ announcementRelays ⟨["relay://a"], fun _ => some 42000000⟩ :=
  (announcement_relay_latency ⟨["relay://a"], fun _ => some 42000000⟩
    "relay://a" 42000000).2.1 rfl (by decide)

/-- C8 counterexample: the claim asserts the encoded latency is
non-negative for every measured duration, but a measured duration of
2^31 milliseconds (about 24.9 days, well within `time.Duration` range)
truncates to 2^31 and the `int32` conversion wraps it to -2^31. -/
theorem announcement_latency_can_be_negative :
    announcementRelays ⟨["relay://big"], fun _ => some 2147483648000000⟩
        = [⟨"relay://big", -2147483648⟩]
    ∧ (-2147483648 : Int) < 0 := by
  refine ⟨by decide, by decide⟩

/-- C10: `registerDevice` coerces the announced identifier to the fixed
32-byte length by `copy` into a zero-valued array: appending zero bytes
to an announced identifier, or appending anything beyond an already
full-length identifier, yields the byte-for-byte identical registration
result — same cache key and entry, same published event. -/
theorem registerDevice_id_coercion (c : Cache) (now : Int)
    (src : Option String) (dev : Device) (zs extra : List Nat) :
    ((∀ z ∈ zs, z = 0) →
      registerDevice c now src ⟨dev.ID ++ zs, dev.Addresses, dev.Relays⟩
        = registerDevice c now src dev)
    ∧ (DeviceIDLen ≤ dev.ID.length →
      registerDevice c now src ⟨dev.ID ++ extra, dev.Addresses, dev.Relays⟩
        = registerDevice c now src dev) := by
  constructor
  · intro hz
    simp [registerDevice, coerceID_append_zeros dev.ID zs hz]
  · intro hlen
    simp [registerDevice, coerceID_append_of_full dev.ID extra hlen]

theorem registerDevice_id_coercion_witness :
    registerDevice [] 0 none ⟨[7, 0, 0], [], []⟩
      = registerDevice [] 0 none ⟨[7], [], []⟩ :=
  (registerDevice_id_coercion [] 0 none ⟨[7], [], []⟩ [0, 0] []).1 (by decide)

end Discover
